import Mathlib

/-!
Verification of the ethtool exporter collection pipeline.

The program (a single Python script) is shallowly embedded here:
Python strings are `List Char`, Python `float` values are modelled exactly
(`PVal`, with finite values as rationals), `re` patterns are compiled into a
small regular-expression AST matched by Brzozowski derivatives with
`re.match`'s anchored-at-start semantics, and the argparse-driven argument
parsing, the per-interface statistics loop, the interface enumerator and the
publication scheduler are each embedded as executable functions.
-/

/-- ASCII whitespace as stripped by Python `str.strip()`. -/
def isPyWS (c : Char) : Bool :=
  c = ' ' || c = '\t' || c = '\n' || c = '\r' || c = '\x0b' || c = '\x0c'

/-- Model of Python `str.strip()`: drop leading and trailing whitespace. -/
def pyStrip (xs : List Char) : List Char :=
  ((xs.dropWhile isPyWS).reverse.dropWhile isPyWS).reverse

/-- Prepend a character to the first chunk of a split result. -/
def consPart (c : Char) : List (List Char) → List (List Char)
  | [] => [[c]]
  | p :: ps => (c :: p) :: ps

/-- Model of Python `data.split('\n')`: split on every newline, keeping
empty chunks (`''.split('\n') == ['']`). -/
def splitNl : List Char → List (List Char)
  | [] => [[]]
  | c :: rest =>
    if c = '\n' then [] :: splitNl rest
    else consPart c (splitNl rest)

/-- Model of Python `line.split(': ')`: split on every (non-overlapping,
left-to-right) occurrence of the two-character separator colon-space. -/
def splitCS : List Char → List (List Char)
  | [] => [[]]
  | c :: rest =>
    if c = ':' then
      match rest with
      | [] => [[c]]
      | c2 :: rest2 =>
        if c2 = ' ' then [] :: splitCS rest2
        else consPart c (splitCS (c2 :: rest2))
    else consPart c (splitCS rest)

/-- `noCS xs` holds when the colon-space separator does not occur in `xs`. -/
def noCS : List Char → Bool
  | [] => true
  | c :: rest =>
    if c = ':' then
      match rest with
      | [] => true
      | c2 :: _ => if c2 = ' ' then false else noCS rest
    else noCS rest

/-- The literal header line skipped by the statistics parser. -/
def hdrChars : List Char := "NIC statistics:".toList

/-- Result of Python `float(s)`: an exact finite value, an infinity, or nan.
Finite values are kept as exact rationals (the decimal value denoted by the
literal); the claims under verification never depend on IEEE rounding. -/
inductive PVal where
  | finite (q : Rat)
  | inf (neg : Bool)
  | nan
deriving DecidableEq, Repr

/-- Optional leading sign, as accepted by Python `float()`. Returns
(is-negative, rest). -/
def pySign : List Char → Bool × List Char
  | '+' :: cs => (false, cs)
  | '-' :: cs => (true, cs)
  | cs => (false, cs)

/-- Case-insensitive comparison of `cs` against the word `w` (full match). -/
def lowerEqList (cs : List Char) (w : List Char) : Bool :=
  cs.map Char.toLower == w

/-- A digit run as accepted by Python numeric literals: digits with single
underscores allowed only between digits (PEP 515). Returns the value, the
digit count, and the unconsumed rest. -/
def pyDigitsGo (acc n : Nat) : List Char → Nat × Nat × List Char
  | '_' :: c :: cs =>
    if c.isDigit then pyDigitsGo (acc * 10 + (c.toNat - 48)) (n + 1) cs
    else (acc, n, '_' :: c :: cs)
  | c :: cs =>
    if c.isDigit then pyDigitsGo (acc * 10 + (c.toNat - 48)) (n + 1) cs
    else (acc, n, c :: cs)
  | [] => (acc, n, [])

/-- Parse a nonempty digit run (with PEP 515 underscores); `none` when the
input does not start with a digit. -/
def pyDigits : List Char → Option (Nat × Nat × List Char)
  | c :: cs => if c.isDigit then some (pyDigitsGo (c.toNat - 48) 1 cs) else none
  | [] => none

/-- The exact rational denoted by `sign (ip . fr) * 10^ex` where `fr` has
`nf` digits: `(ip*10^nf + fr) * 10^max(ex,0) / (10^nf * 10^max(-ex,0))`. -/
def ratOfParts (neg : Bool) (ip fr nf : Nat) (ex : Int) : Rat :=
  let mAbs : Nat := (ip * 10 ^ nf + fr) * 10 ^ ex.toNat
  let den : Nat := 10 ^ nf * 10 ^ (-ex).toNat
  mkRat (if neg then -(mAbs : Int) else (mAbs : Int)) den

/-- Exponent suffix after the `e`/`E`: optional sign then digits, which must
consume the rest of the input. -/
def pyExpTail (neg : Bool) (ip fr nf : Nat) (rest : List Char) : Option PVal :=
  let (eneg, rest2) := pySign rest
  match pyDigits rest2 with
  | some (ev, _, []) =>
    some (.finite (ratOfParts neg ip fr nf (if eneg then -(ev : Int) else (ev : Int))))
  | _ => none

/-- Optional exponent part: end of input, or `e`/`E` followed by an exponent. -/
def pyExp (neg : Bool) (ip fr nf : Nat) : List Char → Option PVal
  | [] => some (.finite (ratOfParts neg ip fr nf 0))
  | 'e' :: rest => pyExpTail neg ip fr nf rest
  | 'E' :: rest => pyExpTail neg ip fr nf rest
  | _ => none

/-- Model of CPython `float(s)` on an already-stripped string: optional sign,
then `inf`/`infinity`/`nan` (case-insensitive) or a decimal literal
`digits [. digits] [exponent]` / `. digits [exponent]`; `none` models the
`ValueError` raised on anything else. -/
def pyFloatOpt (s : List Char) : Option PVal :=
  let (neg, cs) := pySign s
  if lowerEqList cs "infinity".toList || lowerEqList cs "inf".toList then some (.inf neg)
  else if lowerEqList cs "nan".toList then some .nan
  else
    match pyDigits cs with
    | some (ip, _, rest) =>
      match rest with
      | '.' :: rest2 =>
        match pyDigits rest2 with
        | some (fr, nf, rest3) => pyExp neg ip fr nf rest3
        | none => pyExp neg ip 0 0 rest2
      | _ => pyExp neg ip 0 0 rest
    | none =>
      match cs with
      | '.' :: rest2 =>
        match pyDigits rest2 with
        | some (fr, nf, rest3) => pyExp neg 0 fr nf rest3
        | none => none
      | _ => none

/-- Regular-expression AST for the fragment of Python `re` syntax used by the
exporter's patterns: literal characters, `.`, grouping, alternation and the
`*`/`+`/`?` repetitions. -/
inductive Regex where
  | void
  | eps
  | char (c : Char)
  | any
  | cat (r1 r2 : Regex)
  | alt (r1 r2 : Regex)
  | star (r : Regex)
deriving DecidableEq, Repr

/-- Does the regex accept the empty string? -/
def nullable : Regex → Bool
  | .void => false
  | .eps => true
  | .char _ => false
  | .any => false
  | .cat r1 r2 => nullable r1 && nullable r2
  | .alt r1 r2 => nullable r1 || nullable r2
  | .star _ => true

/-- Brzozowski derivative of a regex by one character. `.` does not match a
newline, as in Python `re` without DOTALL. -/
def rderiv : Regex → Char → Regex
  | .void, _ => .void
  | .eps, _ => .void
  | .char c, a => if a = c then .eps else .void
  | .any, a => if a = '\n' then .void else .eps
  | .cat r1 r2, a =>
    if nullable r1 then .alt (.cat (rderiv r1 a) r2) (rderiv r2 a)
    else .cat (rderiv r1 a) r2
  | .alt r1 r2, a => .alt (rderiv r1 a) (rderiv r2 a)
  | .star r, a => .cat (rderiv r a) (.star r)

/-- Iterated derivative along a word. -/
def rderivs : Regex → List Char → Regex
  | r, [] => r
  | r, c :: cs => rderivs (rderiv r c) cs

/-- Whole-word acceptance: `fullmatch r cs` holds iff `r` accepts exactly
`cs` (the semantics of Python `re.fullmatch`). -/
def fullmatch (r : Regex) (cs : List Char) : Bool :=
  nullable (rderivs r cs)

/-- Acceptance anchored at the start: does `r` accept some (possibly empty)
leading segment of `cs`?  This is the truth value of Python `re.match`. -/
def matchHere : Regex → List Char → Bool
  | r, [] => nullable r
  | r, c :: cs => nullable r || matchHere (rderiv r c) cs

/-- Characters that are not plain literals in the supported `re` fragment. -/
def isSpecialChar (c : Char) : Bool :=
  c = '(' || c = ')' || c = '[' || c = ']' || c = '{' || c = '}' ||
  c = '?' || c = '*' || c = '+' || c = '|' || c = '^' || c = '$' ||
  c = '\\' || c = '.'

mutual

/-- Alternation level of the pattern grammar (fuel-bounded descent). -/
def parseAlt : Nat → List Char → Option (Regex × List Char)
  | 0, _ => none
  | f + 1, cs =>
    match parseCat f cs with
    | none => none
    | some (r, rest) =>
      match rest with
      | '|' :: rest2 =>
        match parseAlt f rest2 with
        | none => none
        | some (r2, rest3) => some (.alt r r2, rest3)
      | _ => some (r, rest)

/-- Concatenation level: a (possibly empty) run of pieces. -/
def parseCat : Nat → List Char → Option (Regex × List Char)
  | 0, _ => none
  | f + 1, cs =>
    match cs with
    | [] => some (.eps, [])
    | ')' :: _ => some (.eps, cs)
    | '|' :: _ => some (.eps, cs)
    | _ =>
      match parsePiece f cs with
      | none => none
      | some (r, rest) =>
        match parseCat f rest with
        | none => none
        | some (r2, rest2) => some (.cat r r2, rest2)

/-- One atom with an optional repetition operator. -/
def parsePiece : Nat → List Char → Option (Regex × List Char)
  | 0, _ => none
  | f + 1, cs =>
    match parseAtom f cs with
    | none => none
    | some (r, rest) =>
      match rest with
      | '*' :: rest2 => some (.star r, rest2)
      | '+' :: rest2 => some (.cat r (.star r), rest2)
      | '?' :: rest2 => some (.alt r .eps, rest2)
      | _ => some (r, rest)

/-- A group, `.`, an escaped punctuation character, or a literal character.
Constructs outside the supported fragment make compilation fail. -/
def parseAtom : Nat → List Char → Option (Regex × List Char)
  | 0, _ => none
  | f + 1, cs =>
    match cs with
    | '(' :: rest =>
      match parseAlt f rest with
      | none => none
      | some (r, rest2) =>
        match rest2 with
        | ')' :: rest3 => some (r, rest3)
        | _ => none
    | '.' :: rest => some (.any, rest)
    | '\\' :: c :: rest => if c.isAlphanum then none else some (.char c, rest)
    | c :: rest => if isSpecialChar c then none else some (.char c, rest)
    | [] => none

end

/-- Compile a pattern string to a regex; `none` models a pattern the
supported fragment cannot express (treated like a raised `re.error`). -/
def compileRe (pat : String) : Option Regex :=
  match parseAlt (4 * pat.length + 8) pat.toList with
  | some (r, []) => some r
  | _ => none

/-- Model of `re.match(pat, s)` truthiness: `some b` when the pattern
compiles (`b` = does a match start at position 0), `none` when it does not. -/
def reMatchOpt (pat : String) (s : List Char) : Option Bool :=
  (compileRe pat).map (fun r => matchHere r s)

/-- Python truthiness of an optional string (argparse stores `None` for an
absent flag): `None` and the empty string are falsy. -/
def pyTruthy : Option String → Bool
  | none => false
  | some s => !s.isEmpty

/-- Python truthiness of the optional `--interval` integer: `None` and `0`
are falsy. -/
def intervalTruthy : Option Int → Bool
  | none => false
  | some i => i != 0

/-- The command line handed to `_parse_args`, field per flag: `some v` when
the flag was supplied with value `v`, `none` when absent (argparse fills
`--interface-regex` with its declared default later). -/
structure Cmdline where
  textfile_name : Option String
  listen : Option String
  interval : Option Int
  interface_regex : Option String
  oneshot : Bool
  whitelist_regex : Option String
  blacklist_regex : Option String
deriving DecidableEq, Repr

/-- The parsed-argument record the collector keeps in `self.args`, after
defaulting (`interface_regex` defaults to match-all, `interval` to 5). -/
structure Args where
  textfile_name : Option String
  listen : Option String
  interval : Int
  interface_regex : String
  oneshot : Bool
  whitelist_regex : Option String
  blacklist_regex : Option String
deriving DecidableEq, Repr

/-- Outcome of `_parse_args`: a process exit (argparse usage errors exit
with status 2; the script's own checks call `sys.exit(1)`) or the final
argument record. -/
inductive ParseResult where
  | exit (code : Nat)
  | ok (args : Args)
deriving DecidableEq, Repr

/-- Model of `EthtoolCollector._parse_args`.  argparse enforces the two
mutually exclusive groups first — the destination group `-f`/`-l` is
required — and rejects violations via `parser.error`, which exits with
status 2.  The script then rejects `--oneshot` and a truthy `--interval`
without textfile mode via `sys.exit(1)`, and defaults a falsy interval
to 5. -/
def parse_args (c : Cmdline) : ParseResult :=
  if c.textfile_name.isSome && c.listen.isSome then .exit 2
  else if !(c.textfile_name.isSome || c.listen.isSome) then .exit 2
  else if c.whitelist_regex.isSome && c.blacklist_regex.isSome then .exit 2
  else if c.oneshot && !(pyTruthy c.textfile_name) then .exit 1
  else if intervalTruthy c.interval && !(pyTruthy c.textfile_name) then .exit 1
  else
    .ok
      { textfile_name := c.textfile_name
        listen := c.listen
        interval :=
          match c.interval with
          | some i => if i = 0 then 5 else i
          | none => 5
        interface_regex := c.interface_regex.getD ".*"
        oneshot := c.oneshot
        whitelist_regex := c.whitelist_regex
        blacklist_regex := c.blacklist_regex }

/-- Model of `EthtoolCollector.whitelist_blacklist_check`: a truthy
whitelist decides alone; otherwise a truthy blacklist inverts the match;
otherwise every name passes.  `none` models a raised `re.error` for a
pattern outside the supported fragment. -/
def whitelist_blacklist_check (args : Args) (stat_name : List Char) : Option Bool :=
  if pyTruthy args.whitelist_regex then
    match reMatchOpt (args.whitelist_regex.getD "") stat_name with
    | none => none
    | some b => some b
  else if pyTruthy args.blacklist_regex then
    match reMatchOpt (args.blacklist_regex.getD "") stat_name with
    | none => none
    | some b => some (!b)
  else some true

/-- What one raw line contributes inside the statistics loop: skipped
silently (empty line or the header), skipped with a logged warning
(`ValueError` from the split or the float conversion), or parsed into a
key/value pair. -/
inductive LineResult where
  | skipped
  | warned (line : List Char)
  | parsed (key : List Char) (value : PVal)
deriving DecidableEq, Repr

/-- The per-line parsing step of `update_ethtool_stats`: drop empty lines
and the literal header, strip the line, split on colon-space into exactly a
key and a value, strip both, and convert the value with `float`. -/
def parseLineCore (line : List Char) : LineResult :=
  if line = [] ∨ line = hdrChars then .skipped
  else
    let l := pyStrip line
    match splitCS l with
    | [k, v] =>
      match pyFloatOpt (pyStrip v) with
      | some x => .parsed (pyStrip k) x
      | none => .warned l
    | _ => .warned l

/-- The (key, value) pairs a list of raw lines parses to, disregarding
filtering and deduplication — the Counter Parser component. -/
def parsedPairs (lines : List (List Char)) : List (List Char × PVal) :=
  lines.filterMap fun l =>
    match parseLineCore l with
    | .parsed k v => some (k, v)
    | _ => none

/-- One gauge sample: the `[device, type]` labels and the value passed to
`gauge.add_metric`. -/
structure Triple where
  iface : List Char
  key : List Char
  value : PVal
deriving DecidableEq, Repr

/-- The warnings logged by the statistics loop: a failed line parse, or a
duplicate counter name for the interface. -/
inductive Warn where
  | parseFail (line : List Char)
  | dup (key : List Char)
deriving DecidableEq, Repr

/-- The main loop of `update_ethtool_stats` over the decoded lines, carrying
the `key_set` of names already emitted for this interface.  A parsed pair is
filtered by `whitelist_blacklist_check`; a passing key not in `key_set` is
emitted and added to the set; a passing key already in `key_set` is dropped
with a warning.  `none` models a raised `re.error` escaping the loop. -/
def statLoop (args : Args) (iface : List Char) :
    List (List Char) → List (List Char) → Option (List Triple × List Warn)
  | [], _ => some ([], [])
  | line :: rest, seen =>
    match parseLineCore line with
    | .skipped => statLoop args iface rest seen
    | .warned w =>
      match statLoop args iface rest seen with
      | none => none
      | some (ts, ws) => some (ts, .parseFail w :: ws)
    | .parsed k v =>
      match whitelist_blacklist_check args k with
      | none => none
      | some false => statLoop args iface rest seen
      | some true =>
        if k ∈ seen then
          match statLoop args iface rest seen with
          | none => none
          | some (ts, ws) => some (ts, .dup k :: ws)
        else
          match statLoop args iface rest (k :: seen) with
          | none => none
          | some (ts, ws) => some (⟨iface, k, v⟩ :: ts, ws)

/-- Outcome of invoking `/sbin/ethtool -S iface`: the binary is missing
(`FileNotFoundError`), invoking it is not permitted (`PermissionError`), or
it ran and exited with a return code and captured stdout. -/
inductive FetchResult where
  | fileNotFound
  | permissionError
  | exited (returncode : Int) (stdout : List Char)

/-- Outcome of `update_ethtool_stats` for one interface: a `sys.exit`
(missing binary / permission error), an exception escaping the function, or
the samples and warnings contributed to the gauge. -/
inductive StepOutcome where
  | procExit (code : Nat)
  | raisedErr
  | contributed (ts : List Triple) (ws : List Warn)
deriving DecidableEq, Repr

/-- Model of `EthtoolCollector.update_ethtool_stats`: missing binary and
permission errors call `sys.exit(1)`; a non-zero ethtool return code logs
and returns with nothing contributed; otherwise the stdout is split into
lines and fed through the statistics loop with a fresh `key_set`. -/
def update_ethtool_stats (args : Args) (iface : List Char) (fetch : FetchResult) :
    StepOutcome :=
  match fetch with
  | .fileNotFound => .procExit 1
  | .permissionError => .procExit 1
  | .exited rc data =>
    if rc ≠ 0 then .contributed [] []
    else
      match statLoop args iface (splitNl data) [] with
      | none => .raisedErr
      | some (ts, ws) => .contributed ts ws

/-- One entry of the `/sys/class/net` listing: its name, whether it is a
symbolic link, and the link target read when it is one. -/
structure DirEntry where
  name : List Char
  islink : Bool
  target : List Char
deriving DecidableEq, Repr

/-- Contiguous-substring test, the model of Python `pat in s`. -/
def containsSub (pat : List Char) : List Char → Bool
  | [] => pat.isEmpty
  | c :: rest => List.isPrefixOf pat (c :: rest) || containsSub pat rest

/-- The path segment marking virtual devices. -/
def vchars : List Char := "virtual".toList

/-- Model of `EthtoolCollector.find_physical_interfaces`: a listing entry is
yielded when it is a symbolic link whose target does not contain the
virtual-device marker and whose name matches the interface pattern at the
start.  `none` models a raised `re.error`. -/
def find_physical_interfaces (rgx : String) : List DirEntry → Option (List (List Char))
  | [] => some []
  | e :: es =>
    if e.islink && !containsSub vchars e.target then
      match reMatchOpt rgx e.name with
      | none => none
      | some true => (find_physical_interfaces rgx es).map (e.name :: ·)
      | some false => find_physical_interfaces rgx es
    else find_physical_interfaces rgx es

/-- Outcome of one collection tick: a `sys.exit` from inside, an unhandled
exception propagating out (the interpreter then terminates with status 1),
or the completed snapshot. -/
inductive CollectOutcome where
  | procExit (code : Nat)
  | unhandled
  | snapshot (ts : List Triple) (ws : List Warn)
deriving DecidableEq, Repr

/-- The per-interface loop of `EthtoolCollector.collect`, appending each
interface's contribution to the shared gauge. -/
def collectLoop (args : Args) (fetch : List Char → FetchResult) :
    List (List Char) → CollectOutcome
  | [] => .snapshot [] []
  | i :: is =>
    match update_ethtool_stats args i (fetch i) with
    | .procExit c => .procExit c
    | .raisedErr => .unhandled
    | .contributed ts ws =>
      match collectLoop args fetch is with
      | .snapshot ts2 ws2 => .snapshot (ts ++ ts2) (ws ++ ws2)
      | other => other

/-- Model of one tick of `EthtoolCollector.collect`: `listing` is the
`/sys/class/net` directory listing (`none` when `os.listdir` raises because
the root is unreadable — the `OSError` is unhandled), and `fetch` gives each
interface's ethtool invocation outcome. -/
def collect (args : Args) (listing : Option (List DirEntry))
    (fetch : List Char → FetchResult) : CollectOutcome :=
  match listing with
  | none => .unhandled
  | some entries =>
    match find_physical_interfaces args.interface_regex entries with
    | none => .unhandled
    | some ifaces => collectLoop args fetch ifaces

/-- The process exit status an outcome produces, if it terminates the
process: an explicit `sys.exit` code, or status 1 for an unhandled
exception reaching the interpreter. -/
def exitStatusOf : CollectOutcome → Option Nat
  | .procExit c => some c
  | .unhandled => some 1
  | .snapshot _ _ => none

/-- Observable scheduler events of `__main__`: starting the HTTP server,
one collection tick (driven by `write_to_textfile` iterating the registry),
one textfile serialization, and a sleep. -/
inductive Event where
  | startServer
  | collectEv
  | writeEv
  | sleepEv (secs : Int)
deriving DecidableEq, Repr

/-- The textfile-mode loop of `__main__`: collect and write, then exit 0
when `--oneshot` is set, else sleep for the interval and repeat.  The fuel
bounds how many iterations are unrolled; `none` as the exit status means the
loop was still running when the fuel ran out. -/
def runFileMode (a : Args) : Nat → List Event × Option Nat
  | 0 => ([], none)
  | fuel + 1 =>
    if a.oneshot then ([Event.collectEv, Event.writeEv], some 0)
    else
      let res := runFileMode a fuel
      (Event.collectEv :: Event.writeEv :: Event.sleepEv a.interval :: res.1, res.2)

/-- The serve-mode branch of `__main__`: start the HTTP server once, then
sleep forever. -/
def serveRun (fuel : Nat) : List Event × Option Nat :=
  (Event.startServer :: List.replicate fuel (Event.sleepEv 3600), none)

/-- The mode dispatch of `__main__`: a truthy `--listen` serves over HTTP, a
truthy `--textfile-name` runs the file loop, otherwise the script falls off
the end (normal exit 0). -/
def mainRun (a : Args) (fuel : Nat) : List Event × Option Nat :=
  if pyTruthy a.listen then serveRun fuel
  else if pyTruthy a.textfile_name then runFileMode a fuel
  else ([], some 0)

/-- A file-mode argument record with no name filter, as produced by
`parse_args` for `-f /tmp/metrics`. -/
def argsNF : Args :=
  { textfile_name := some "/tmp/metrics"
    listen := none
    interval := 5
    interface_regex := ".*"
    oneshot := false
    whitelist_regex := none
    blacklist_regex := none }

/-- Single-step unfolding of `splitCS` with a lookahead condition. -/
theorem splitCS_cons (c : Char) (rest : List Char) :
    splitCS (c :: rest) =
      if c = ':' ∧ rest.head? = some ' ' then [] :: splitCS rest.tail
      else consPart c (splitCS rest) := by
  rcases rest with _ | ⟨c2, rest2⟩
  · by_cases hc : c = ':' <;> simp [splitCS, hc, consPart]
  · by_cases hc : c = ':' <;> by_cases h2 : c2 = ' ' <;>
      simp [splitCS, hc, h2, consPart]

/-- Single-step unfolding of `noCS` with a lookahead condition. -/
theorem noCS_cons (c : Char) (rest : List Char) :
    noCS (c :: rest) = (!decide (c = ':' ∧ rest.head? = some ' ') && noCS rest) := by
  rcases rest with _ | ⟨c2, rest2⟩
  · by_cases hc : c = ':' <;> simp [noCS, hc]
  · by_cases hc : c = ':' <;> by_cases h2 : c2 = ' ' <;>
      simp [noCS, hc, h2]

/-- A separator-free string splits to itself. -/
theorem splitCS_of_noCS : ∀ v : List Char, noCS v = true → splitCS v = [v] := by
  intro v
  induction v with
  | nil => intro _; rfl
  | cons c rest ih =>
    intro h
    rw [noCS_cons] at h
    simp only [Bool.and_eq_true, Bool.not_eq_true', decide_eq_false_iff_not] at h
    simp [splitCS_cons, h.1, ih h.2, consPart]

/-- Splitting `n ++ ": " ++ v` when `n` is separator-free peels off `n`. -/
theorem splitCS_append : ∀ n v : List Char, noCS n = true →
    splitCS (n ++ ':' :: ' ' :: v) = n :: splitCS v := by
  intro n
  induction n with
  | nil =>
    intro v _
    simp [splitCS]
  | cons c rest ih =>
    intro v h
    rw [noCS_cons] at h
    simp only [Bool.and_eq_true, Bool.not_eq_true', decide_eq_false_iff_not] at h
    have hcond : ¬(c = ':' ∧ (rest ++ ':' :: ' ' :: v).head? = some ' ') := by
      rcases rest with _ | ⟨r, rs⟩
      · simp
      · simpa using h.1
    rw [List.cons_append, splitCS_cons, if_neg hcond, ih v h.2]
    rfl

/-- `re.match` semantics characterized: a match anchored at the start exists
iff the regex fully accepts some leading segment of the input — prefix
match, not full-string match. -/
theorem matchHere_iff : ∀ (cs : List Char) (r : Regex),
    matchHere r cs = true ↔ ∃ k, k ≤ cs.length ∧ fullmatch r (cs.take k) = true := by
  intro cs
  induction cs with
  | nil =>
    intro r
    constructor
    · intro h
      exact ⟨0, Nat.le_refl 0, h⟩
    · rintro ⟨k, hk, h⟩
      have hk0 : k = 0 := Nat.le_zero.mp hk
      subst hk0
      exact h
  | cons c cs ih =>
    intro r
    simp only [matchHere, Bool.or_eq_true]
    constructor
    · rintro (h | h)
      · exact ⟨0, Nat.zero_le _, by simpa [fullmatch, rderivs] using h⟩
      · obtain ⟨k, hk, hf⟩ := (ih (rderiv r c)).mp h
        exact ⟨k + 1, Nat.succ_le_succ hk,
          by simpa [fullmatch, rderivs] using hf⟩
    · rintro ⟨k, hk, hf⟩
      cases k with
      | zero => exact Or.inl (by simpa [fullmatch, rderivs] using hf)
      | succ k =>
        exact Or.inr ((ih (rderiv r c)).mpr
          ⟨k, Nat.le_of_succ_le_succ hk, by simpa [fullmatch, rderivs] using hf⟩)

/-- Keys emitted by the statistics loop are distinct and avoid the incoming
`key_set`. -/
theorem statLoop_keys (args : Args) (iface : List Char) :
    ∀ (lines : List (List Char)) (seen : List (List Char))
      (ts : List Triple) (ws : List Warn),
      statLoop args iface lines seen = some (ts, ws) →
      (ts.map Triple.key).Nodup ∧ ∀ t ∈ ts, t.key ∉ seen := by
  intro lines
  induction lines with
  | nil =>
    intro seen ts ws h
    simp only [statLoop, Option.some.injEq, Prod.mk.injEq] at h
    obtain ⟨h1, _⟩ := h
    subst h1
    simp
  | cons line rest ih =>
    intro seen ts ws h
    cases hp : parseLineCore line with
    | skipped =>
      simp only [statLoop, hp] at h
      exact ih seen ts ws h
    | warned w =>
      simp only [statLoop, hp] at h
      cases hs : statLoop args iface rest seen with
      | none => simp [hs] at h
      | some p =>
        obtain ⟨ts', ws'⟩ := p
        simp only [hs, Option.some.injEq, Prod.mk.injEq] at h
        obtain ⟨h1, _⟩ := h
        subst h1
        exact ih seen ts' ws' hs
    | parsed k v =>
      simp only [statLoop, hp] at h
      cases hc : whitelist_blacklist_check args k with
      | none => simp [hc] at h
      | some b =>
        simp only [hc] at h
        cases b with
        | false => exact ih seen ts ws h
        | true =>
          by_cases hk : k ∈ seen
          · simp only [if_pos hk] at h
            cases hs : statLoop args iface rest seen with
            | none => simp [hs] at h
            | some p =>
              obtain ⟨ts', ws'⟩ := p
              simp only [hs, Option.some.injEq, Prod.mk.injEq] at h
              obtain ⟨h1, _⟩ := h
              subst h1
              exact ih seen ts' ws' hs
          · simp only [if_neg hk] at h
            cases hs : statLoop args iface rest (k :: seen) with
            | none => simp [hs] at h
            | some p =>
              obtain ⟨ts', ws'⟩ := p
              simp only [hs, Option.some.injEq, Prod.mk.injEq] at h
              obtain ⟨h1, _⟩ := h
              subst h1
              obtain ⟨hnd, hnot⟩ := ih (k :: seen) ts' ws' hs
              constructor
              · refine List.nodup_cons.mpr ⟨?_, hnd⟩
                intro hmem
                obtain ⟨t, ht, hkey⟩ := List.mem_map.mp hmem
                exact (hnot t ht) (hkey ▸ List.mem_cons_self k seen)
              · intro t ht
                rcases List.mem_cons.mp ht with h1 | h1
                · subst h1; exact hk
                · intro hmem
                  exact (hnot t h1) (List.mem_cons_of_mem k hmem)

/-- The enumerator equals a filter over the listing when the pattern
compiles: an entry is yielded iff it is a symbolic link, its target avoids
the virtual marker, and its name matches the pattern at the start. -/
theorem find_eq_filter (rgx : String) (r : Regex) (hc : compileRe rgx = some r) :
    ∀ entries : List DirEntry,
      find_physical_interfaces rgx entries =
        some ((entries.filter fun e =>
          (e.islink && !containsSub vchars e.target) && matchHere r e.name).map
            DirEntry.name) := by
  intro entries
  induction entries with
  | nil => simp [find_physical_interfaces]
  | cons e es ih =>
    have hm : reMatchOpt rgx e.name = some (matchHere r e.name) := by
      simp [reMatchOpt, hc]
    by_cases h1 : e.islink && !containsSub vchars e.target
    · cases hmh : matchHere r e.name with
      | true =>
        simp [find_physical_interfaces, h1, hm, hmh, List.filter_cons, ih]
      | false =>
        simp [find_physical_interfaces, h1, hm, hmh, List.filter_cons, ih]
    · have h1' : (e.islink && !containsSub vchars e.target) = false := by
        simpa using h1
      simp [find_physical_interfaces, h1', List.filter_cons, ih]

/-- C1: within one collection tick, the counter names emitted for one
interface are pairwise distinct — a repeated name keeps the first
occurrence's value, drops the later occurrence with a warning, and causes no
failure; on the raw text `NIC statistics:` / `rx_packets: 100` /
`rx_errors: 0` / `rx_packets: 999` for `eth0` with no filter, exactly the
triples `(eth0, rx_packets, 100.0)` and `(eth0, rx_errors, 0.0)` result. -/
theorem C1_dedup :
    (∀ (args : Args) (iface : List Char) (lines : List (List Char))
        (ts : List Triple) (ws : List Warn),
        statLoop args iface lines [] = some (ts, ws) →
        (ts.map Triple.key).Nodup)
    ∧ update_ethtool_stats argsNF "eth0".toList
        (.exited 0 "NIC statistics:\nrx_packets: 100\nrx_errors: 0\nrx_packets: 999\n".toList)
      = .contributed
          [⟨"eth0".toList, "rx_packets".toList, .finite 100⟩,
           ⟨"eth0".toList, "rx_errors".toList, .finite 0⟩]
          [.dup "rx_packets".toList] := by
  constructor
  · intro args iface lines ts ws h
    exact (statLoop_keys args iface lines [] ts ws h).1
  · decide

/-- Witness for C1 at a concrete input with a duplicated counter name. -/
theorem C1_dedup_witness :
    (([⟨"eth0".toList, "rx_packets".toList, PVal.finite 100⟩,
       ⟨"eth0".toList, "rx_errors".toList, PVal.finite 0⟩] : List Triple).map
        Triple.key).Nodup :=
  C1_dedup.1 argsNF "eth0".toList
    ["rx_packets: 100".toList, "rx_errors: 0".toList, "rx_packets: 999".toList]
    [⟨"eth0".toList, "rx_packets".toList, PVal.finite 100⟩,
     ⟨"eth0".toList, "rx_errors".toList, PVal.finite 0⟩]
    [Warn.dup "rx_packets".toList]
    (by decide)

/-- C2: a line that trims to a separator-free name, the colon-space
separator, and a value part accepted by `float` parses to that (trimmed)
name and that number; empty lines and the literal header are skipped; a
line lacking the separator, or whose value part is not numeric, is excluded
with a warning; and an excluded line never prevents parsing of subsequent
lines. -/
theorem C2_parseLines :
    (∀ (line n v : List Char) (x : PVal),
        line ≠ [] → line ≠ hdrChars →
        pyStrip line = n ++ ':' :: ' ' :: v →
        noCS n = true → noCS v = true →
        pyFloatOpt (pyStrip v) = some x →
        parseLineCore line = .parsed (pyStrip n) x)
    ∧ parseLineCore [] = .skipped
    ∧ parseLineCore hdrChars = .skipped
    ∧ (∀ line : List Char, line ≠ [] → line ≠ hdrChars →
        noCS (pyStrip line) = true →
        parseLineCore line = .warned (pyStrip line))
    ∧ (∀ (line n v : List Char),
        line ≠ [] → line ≠ hdrChars →
        pyStrip line = n ++ ':' :: ' ' :: v →
        noCS n = true → noCS v = true →
        pyFloatOpt (pyStrip v) = none →
        parseLineCore line = .warned (pyStrip line))
    ∧ (∀ bad w : List Char, parseLineCore bad = .warned w →
        ∀ pre post, parsedPairs (pre ++ bad :: post) = parsedPairs pre ++ parsedPairs post) := by
  refine ⟨?_, rfl, by decide, ?_, ?_, ?_⟩
  · intro line n v x h0 h1 heq hn hv hx
    have hno : ¬(line = [] ∨ line = hdrChars) := by
      rintro (h | h)
      · exact h0 h
      · exact h1 h
    simp only [parseLineCore, if_neg hno]
    rw [heq, splitCS_append n v hn, splitCS_of_noCS v hv]
    simp [hx]
  · intro line h0 h1 hn
    have hno : ¬(line = [] ∨ line = hdrChars) := by
      rintro (h | h)
      · exact h0 h
      · exact h1 h
    simp only [parseLineCore, if_neg hno]
    rw [splitCS_of_noCS _ hn]
  · intro line n v h0 h1 heq hn hv hx
    have hno : ¬(line = [] ∨ line = hdrChars) := by
      rintro (h | h)
      · exact h0 h
      · exact h1 h
    simp only [parseLineCore, if_neg hno]
    rw [heq, splitCS_append n v hn, splitCS_of_noCS v hv]
    simp [hx]
  · intro bad w hb pre post
    simp [parsedPairs, List.filterMap_append, List.filterMap_cons, hb]

/-- Witness for C2 at concrete lines: a well-formed line, a separator-less
line, and a malformed line between two good ones. -/
theorem C2_parseLines_witness :
    parseLineCore "rx_packets: 100".toList
      = LineResult.parsed "rx_packets".toList (PVal.finite 100)
    ∧ parseLineCore "garbage line".toList = LineResult.warned "garbage line".toList
    ∧ parsedPairs ["a: 1".toList, "garbage line".toList, "b: 2".toList]
      = parsedPairs ["a: 1".toList] ++ parsedPairs ["b: 2".toList] := by
  refine ⟨?_, ?_, ?_⟩
  · exact C2_parseLines.1 "rx_packets: 100".toList "rx_packets".toList "100".toList
      (PVal.finite 100) (by decide) (by decide) (by decide) (by decide) (by decide)
      (by decide)
  · exact C2_parseLines.2.2.2.1 "garbage line".toList (by decide) (by decide) (by decide)
  · exact C2_parseLines.2.2.2.2.2 "garbage line".toList "garbage line".toList
      (C2_parseLines.2.2.2.1 "garbage line".toList (by decide) (by decide) (by decide))
      ["a: 1".toList] ["b: 2".toList]

/-- C3: with a (truthy) allow pattern, a name is included iff the pattern
matches at the start of the name (prefix-anchored, not full-string); with a
(truthy) deny pattern, iff it does not so match; with neither, always. -/
theorem C3_filter :
    (∀ (args : Args) (name : List Char) (r : Regex),
        pyTruthy args.whitelist_regex = true →
        compileRe (args.whitelist_regex.getD "") = some r →
        (whitelist_blacklist_check args name = some true ↔
          ∃ k, k ≤ name.length ∧ fullmatch r (name.take k) = true))
    ∧ (∀ (args : Args) (name : List Char) (r : Regex),
        pyTruthy args.whitelist_regex = false →
        pyTruthy args.blacklist_regex = true →
        compileRe (args.blacklist_regex.getD "") = some r →
        (whitelist_blacklist_check args name = some true ↔
          ¬∃ k, k ≤ name.length ∧ fullmatch r (name.take k) = true))
    ∧ (∀ (args : Args) (name : List Char),
        pyTruthy args.whitelist_regex = false →
        pyTruthy args.blacklist_regex = false →
        whitelist_blacklist_check args name = some true) := by
  refine ⟨?_, ?_, ?_⟩
  · intro args name r hW hc
    simp only [whitelist_blacklist_check, hW, if_true, reMatchOpt, hc, Option.map_some']
    simp only [Option.some.injEq]
    exact matchHere_iff name r
  · intro args name r hW hB hc
    simp only [whitelist_blacklist_check, hW, hB, if_true, Bool.false_eq_true, if_false,
      reMatchOpt, hc, Option.map_some']
    rw [← matchHere_iff name r]
    cases matchHere r name <;> simp
  · intro args name hW hB
    simp [whitelist_blacklist_check, hW, hB]

/-- Witness for C3: an allow pattern including a matching name, a deny
pattern excluding it, and the no-filter case. -/
theorem C3_filter_witness :
    whitelist_blacklist_check { argsNF with whitelist_regex := some "rx_" }
      "rx_packets".toList = some true
    ∧ whitelist_blacklist_check argsNF "rx_packets".toList = some true := by
  constructor
  · exact (C3_filter.1 _ "rx_packets".toList
      (Regex.cat (Regex.char 'r') (Regex.cat (Regex.char 'x')
        (Regex.cat (Regex.char '_') Regex.eps)))
      (by decide) (by decide)).mpr ⟨3, by decide, by decide⟩
  · exact C3_filter.2.2 argsNF "rx_packets".toList (by decide) (by decide)

/-- C4: a missing ethtool binary terminates the process with status 1; a
permission error likewise; a non-zero ethtool exit for one interface
contributes zero counters for the tick and does not change the outcome of
collecting the remaining interfaces. -/
theorem C4_fetch_tiers :
    (∀ (args : Args) (iface : List Char),
        update_ethtool_stats args iface .fileNotFound = .procExit 1)
    ∧ (∀ (args : Args) (iface : List Char),
        update_ethtool_stats args iface .permissionError = .procExit 1)
    ∧ (∀ (args : Args) (iface : List Char) (rc : Int) (data : List Char),
        rc ≠ 0 →
        update_ethtool_stats args iface (.exited rc data) = .contributed [] [])
    ∧ (∀ (args : Args) (fetch : List Char → FetchResult) (xs ys : List (List Char))
        (i : List Char) (rc : Int) (data : List Char),
        fetch i = .exited rc data → rc ≠ 0 →
        collectLoop args fetch (xs ++ i :: ys) = collectLoop args fetch (xs ++ ys)) := by
  refine ⟨fun _ _ => rfl, fun _ _ => rfl, ?_, ?_⟩
  · intro args iface rc data hrc
    simp [update_ethtool_stats, hrc]
  · intro args fetch xs ys i rc data hf hrc
    induction xs with
    | nil =>
      simp only [List.nil_append, collectLoop, hf, update_ethtool_stats, if_pos hrc]
      cases collectLoop args fetch ys <;> simp
    | cons x xs ih =>
      simp only [List.cons_append, collectLoop, List.append_eq, ih]

/-- Witness for C4: a failing ethtool run contributes nothing and leaves the
rest of the collection unchanged. -/
theorem C4_fetch_tiers_witness :
    update_ethtool_stats argsNF "eth1".toList (.exited 75 "x".toList) = .contributed [] []
    ∧ collectLoop argsNF (fun _ => .exited 75 "x".toList) ["eth1".toList]
      = collectLoop argsNF (fun _ => .exited 75 "x".toList) [] := by
  constructor
  · exact C4_fetch_tiers.2.2.1 argsNF "eth1".toList 75 "x".toList (by decide)
  · exact C4_fetch_tiers.2.2.2 argsNF (fun _ => .exited 75 "x".toList) [] []
      "eth1".toList 75 "x".toList rfl (by decide)

/-- Counterexample to C5: supplying both `--textfile-name` and `--listen`
violates the required mutually exclusive group and makes argparse exit with
status 2, not status 1 as the claim states. -/
theorem C5_counterexample :
    parse_args
      { textfile_name := some "/tmp/m", listen := some "0.0.0.0:9417",
        interval := none, interface_regex := none, oneshot := false,
        whitelist_regex := none, blacklist_regex := none }
      = ParseResult.exit 2
    ∧ ParseResult.exit 2 ≠ ParseResult.exit 1 := ⟨by decide, by decide⟩

/-- C5 (amended): mutually-exclusive-flag violations (textfile vs listen,
whitelist vs blacklist) exit with argparse's usage-error status 2; using
oneshot, or a truthy interval, without file mode exits with status 1; and
fatal collection errors (missing or unauthorized ethtool binary, unreadable
device-listing root) terminate with status 1. -/
theorem C5_amended :
    (∀ c : Cmdline, c.textfile_name.isSome = true → c.listen.isSome = true →
        parse_args c = .exit 2)
    ∧ (∀ c : Cmdline, c.whitelist_regex.isSome = true → c.blacklist_regex.isSome = true →
        parse_args c = .exit 2)
    ∧ (∀ c : Cmdline,
        (c.textfile_name.isSome && c.listen.isSome) = false →
        (c.textfile_name.isSome || c.listen.isSome) = true →
        (c.whitelist_regex.isSome && c.blacklist_regex.isSome) = false →
        c.oneshot = true → pyTruthy c.textfile_name = false →
        parse_args c = .exit 1)
    ∧ (∀ c : Cmdline,
        (c.textfile_name.isSome && c.listen.isSome) = false →
        (c.textfile_name.isSome || c.listen.isSome) = true →
        (c.whitelist_regex.isSome && c.blacklist_regex.isSome) = false →
        c.oneshot = false → intervalTruthy c.interval = true →
        pyTruthy c.textfile_name = false →
        parse_args c = .exit 1)
    ∧ (∀ (args : Args) (iface : List Char),
        update_ethtool_stats args iface .fileNotFound = .procExit 1
        ∧ update_ethtool_stats args iface .permissionError = .procExit 1)
    ∧ (∀ (args : Args) (fetch : List Char → FetchResult),
        exitStatusOf (collect args none fetch) = some 1) := by
  refine ⟨?_, ?_, ?_, ?_, fun _ _ => ⟨rfl, rfl⟩, fun _ _ => rfl⟩
  · intro c h1 h2
    simp [parse_args, h1, h2]
  · intro c hW hB
    unfold parse_args
    split
    · rfl
    · split
      · rfl
      · simp [hW, hB]
  · intro c hfl hor hwb h1 h2
    simp [parse_args, hfl, hor, hwb, h1, h2]
  · intro c hfl hor hwb ho hI h2
    simp [parse_args, hfl, hor, hwb, ho, hI, h2]

/-- Witness for C5 (amended) at concrete command lines and environments. -/
theorem C5_amended_witness :
    parse_args
      { textfile_name := none, listen := none, interval := none,
        interface_regex := none, oneshot := false,
        whitelist_regex := some "rx", blacklist_regex := some "tx" }
      = ParseResult.exit 2
    ∧ parse_args
      { textfile_name := none, listen := some "0.0.0.0:9417", interval := none,
        interface_regex := none, oneshot := true,
        whitelist_regex := none, blacklist_regex := none }
      = ParseResult.exit 1
    ∧ parse_args
      { textfile_name := none, listen := some "0.0.0.0:9417", interval := some 3,
        interface_regex := none, oneshot := false,
        whitelist_regex := none, blacklist_regex := none }
      = ParseResult.exit 1
    ∧ exitStatusOf (collect argsNF none (fun _ => .fileNotFound)) = some 1 := by
  refine ⟨?_, ?_, ?_, ?_⟩
  · exact C5_amended.2.1 _ (by decide) (by decide)
  · exact C5_amended.2.2.1 _ (by decide) (by decide) (by decide) rfl (by decide)
  · exact C5_amended.2.2.2.1 _ (by decide) (by decide) (by decide) rfl (by decide) (by decide)
  · exact C5_amended.2.2.2.2.2 argsNF (fun _ => .fileNotFound)

/-- Counterexample to C6: `--interval 0` together with serve mode
(`--listen`, no `--textfile-name`) is NOT rejected — `0` is falsy in the
script's truthiness test, so parsing succeeds and the interval silently
becomes the default 5. -/
theorem C6_counterexample :
    parse_args
      { textfile_name := none, listen := some "0.0.0.0:9417",
        interval := some 0, interface_regex := none, oneshot := false,
        whitelist_regex := none, blacklist_regex := none }
      = ParseResult.ok
          { textfile_name := none, listen := some "0.0.0.0:9417", interval := 5,
            interface_regex := ".*", oneshot := false,
            whitelist_regex := none, blacklist_regex := none } := by decide

/-- C6 (amended): supplying `--interval` with a nonzero value together with
serve mode is rejected with exit status 1 before any collection; supplying
`--interval 0` is treated like an absent flag (integer truthiness) and the
interval becomes the default 5; when `--interval` is not supplied, the
interval defaults to 5. -/
theorem C6_amended :
    (∀ (c : Cmdline) (i : Int),
        (c.textfile_name.isSome && c.listen.isSome) = false →
        (c.textfile_name.isSome || c.listen.isSome) = true →
        (c.whitelist_regex.isSome && c.blacklist_regex.isSome) = false →
        c.oneshot = false → pyTruthy c.textfile_name = false →
        c.interval = some i → i ≠ 0 →
        parse_args c = .exit 1)
    ∧ (∀ (c : Cmdline) (a : Args), parse_args c = .ok a → c.interval = none →
        a.interval = 5)
    ∧ (∀ (c : Cmdline) (a : Args), parse_args c = .ok a → c.interval = some 0 →
        a.interval = 5) := by
  refine ⟨?_, ?_, ?_⟩
  · intro c i hfl hor hwb ho ht hI hi
    have hit : intervalTruthy c.interval = true := by
      simp [intervalTruthy, hI, hi]
    simp [parse_args, hfl, hor, hwb, ho, ht, hit]
  · intro c a h hI
    unfold parse_args at h
    repeat' split at h
    all_goals simp_all
    all_goals rw [← h]
  · intro c a h hI
    unfold parse_args at h
    repeat' split at h
    all_goals simp_all
    all_goals rw [← h]

/-- Witness for C6 (amended): nonzero interval in serve mode exits 1; a
file-mode command line without interval, and one with `--interval 0`, both
yield interval 5. -/
theorem C6_amended_witness :
    parse_args
      { textfile_name := none, listen := some "0.0.0.0:9417", interval := some 7,
        interface_regex := none, oneshot := false,
        whitelist_regex := none, blacklist_regex := none }
      = ParseResult.exit 1
    ∧ ({ textfile_name := some "/tmp/m", listen := none, interval := 5,
         interface_regex := ".*", oneshot := false, whitelist_regex := none,
         blacklist_regex := none } : Args).interval = 5
    ∧ ({ textfile_name := some "/tmp/m", listen := none, interval := 5,
         interface_regex := ".*", oneshot := true, whitelist_regex := none,
         blacklist_regex := none } : Args).interval = 5 := by
  refine ⟨?_, ?_, ?_⟩
  · exact C6_amended.1 _ 7 (by decide) (by decide) (by decide) rfl (by decide) rfl
      (by decide)
  · exact C6_amended.2.1
      { textfile_name := some "/tmp/m", listen := none, interval := none,
        interface_regex := none, oneshot := false,
        whitelist_regex := none, blacklist_regex := none }
      _ (by decide) rfl
  · exact C6_amended.2.2
      { textfile_name := some "/tmp/m", listen := none, interval := some 0,
        interface_regex := none, oneshot := true,
        whitelist_regex := none, blacklist_regex := none }
      _ (by decide) rfl

/-- C7: an entry is enumerated iff it is a symbolic link whose target does
not contain the virtual-device marker and whose name matches the interface
pattern at the start; a link into a `virtual` target is excluded even under
the match-all pattern. -/
theorem C7_enumerator :
    (∀ (rgx : String) (r : Regex) (entries : List DirEntry),
        compileRe rgx = some r →
        find_physical_interfaces rgx entries =
          some ((entries.filter fun e =>
            (e.islink && !containsSub vchars e.target) && matchHere r e.name).map
              DirEntry.name))
    ∧ find_physical_interfaces ".*"
        [{ name := "lo".toList, islink := true,
           target := "../../devices/virtual/net/lo".toList }] = some [] :=
  ⟨fun rgx r entries hc => find_eq_filter rgx r hc entries, by decide⟩

/-- Witness for C7: a physical link is kept, a non-link is dropped, under
the default match-all pattern. -/
theorem C7_enumerator_witness :
    find_physical_interfaces ".*"
      [{ name := "eth0".toList, islink := true,
         target := "../../devices/pci0/net/eth0".toList },
       { name := "bonding_masters".toList, islink := false, target := [] }]
      = some ["eth0".toList] := by
  rw [C7_enumerator.1 ".*" (Regex.cat (Regex.star Regex.any) Regex.eps) _ (by decide)]
  decide

/-- C8: with `--oneshot` and a truthy `--textfile-name`, the scheduler
performs exactly one collection and one textfile write, then exits with
status 0 — no sleep, no further iterations. -/
theorem C8_oneshot :
    ∀ (a : Args) (fuel : Nat),
      pyTruthy a.listen = false →
      pyTruthy a.textfile_name = true →
      a.oneshot = true →
      mainRun a (fuel + 1) = ([Event.collectEv, Event.writeEv], some 0) := by
  intro a fuel hl ht ho
  simp [mainRun, hl, ht, runFileMode, ho]

/-- Witness for C8 at a concrete one-shot file-mode configuration. -/
theorem C8_oneshot_witness :
    mainRun { argsNF with oneshot := true } 1 = ([Event.collectEv, Event.writeEv], some 0) :=
  C8_oneshot { argsNF with oneshot := true } 0 (by decide) (by decide) rfl

/-- C9: an empty deny pattern is falsy and therefore treated as no filter —
every name is included although the empty regex matches at the start of
every name; an empty allow pattern is likewise treated as absent. -/
theorem C9_empty_pattern :
    (∀ (args : Args) (name : List Char),
        pyTruthy args.whitelist_regex = false →
        args.blacklist_regex = some "" →
        whitelist_blacklist_check args name = some true)
    ∧ (∀ (args : Args) (name : List Char),
        args.whitelist_regex = some "" →
        pyTruthy args.blacklist_regex = false →
        whitelist_blacklist_check args name = some true)
    ∧ (∀ name : List Char, reMatchOpt "" name = some true) := by
  refine ⟨?_, ?_, ?_⟩
  · intro args name hW hB
    unfold whitelist_blacklist_check
    rw [hW, hB]
    rfl
  · intro args name hW hB
    unfold whitelist_blacklist_check
    rw [hW, hB]
    rfl
  · intro name
    have hc : compileRe "" = some Regex.eps := by decide
    simp only [reMatchOpt, hc, Option.map_some', Option.some.injEq]
    cases name <;> simp [matchHere, nullable]

/-- Witness for C9: an empty blacklist lets a name through, and the empty
pattern does match at the start of a nonempty name. -/
theorem C9_empty_pattern_witness :
    whitelist_blacklist_check { argsNF with blacklist_regex := some "" }
      "rx_packets".toList = some true
    ∧ reMatchOpt "" "anything".toList = some true :=
  ⟨C9_empty_pattern.1 _ "rx_packets".toList (by decide) rfl,
   C9_empty_pattern.2.2 "anything".toList⟩

/-- C10: the interface pattern is applied with start-anchored prefix-match
semantics, not full-string match — any qualifying entry whose name has a
leading segment accepted by the pattern is enumerated; concretely, pattern
`eth0` admits the interface `eth01`, which it does not full-match. -/
theorem C10_iface_regex :
    (∀ (rgx : String) (r : Regex) (entries : List DirEntry)
        (out : List (List Char)) (e : DirEntry),
        compileRe rgx = some r →
        find_physical_interfaces rgx entries = some out →
        e ∈ entries → e.islink = true → containsSub vchars e.target = false →
        (∃ k, k ≤ e.name.length ∧ fullmatch r (e.name.take k) = true) →
        e.name ∈ out)
    ∧ find_physical_interfaces "eth0"
        [{ name := "eth01".toList, islink := true,
           target := "../../devices/pci0/net/eth01".toList }]
        = some ["eth01".toList]
    ∧ (compileRe "eth0").map (fun r => fullmatch r "eth01".toList) = some false := by
  refine ⟨?_, by decide, by decide⟩
  intro rgx r entries out e hc hf he hl hv hex
  rw [find_eq_filter rgx r hc entries, Option.some.injEq] at hf
  subst hf
  refine List.mem_map.mpr ⟨e, List.mem_filter.mpr ⟨he, ?_⟩, rfl⟩
  simp [hl, hv, (matchHere_iff e.name r).mpr hex]

/-- Witness for C10: the entry named `eth01` is enumerated under pattern
`eth0`. -/
theorem C10_iface_regex_witness :
    "eth01".toList ∈ (["eth01".toList] : List (List Char)) :=
  C10_iface_regex.1 "eth0"
    (Regex.cat (Regex.char 'e') (Regex.cat (Regex.char 't')
      (Regex.cat (Regex.char 'h') (Regex.cat (Regex.char '0') Regex.eps))))
    [{ name := "eth01".toList, islink := true,
       target := "../../devices/pci0/net/eth01".toList }]
    ["eth01".toList]
    { name := "eth01".toList, islink := true,
      target := "../../devices/pci0/net/eth01".toList }
    (by decide) (by decide) (by decide) rfl (by decide)
    ⟨4, by decide, by decide⟩
